import Mathlib

/-!
Verification development for the `modular_multiplication` repository
(`modular_multiplication.py` and `utils.py`).

Shallow embedding conventions:
* Python `float` values are modelled by `ℚ` where only comparisons and exact
  arithmetic on decimal literals matter (the slider parameters, the cleanup
  tolerances), and by `ℝ` where transcendental geometry is computed
  (`np.exp`, rotations).
* Python complex numbers are modelled by `ℂ` (for the vertex cache, which the
  source keeps as complex values) and by `ℝ × ℝ` pairs (for the edge-point
  cache, which the source converts to `(p.real, p.imag)` tuples).
* Fallible code (`raise`, `AttributeError` on a missing attribute,
  `ZeroDivisionError`) is modelled with `Except String`.
* Attributes that are only created by assignment (`vertex_points`,
  `edge_points`, `connections`) are modelled with `Option`; reading an unset
  attribute is an `AttributeError`.
* The display is instantiated by the GUI with `IMAGE_SIZE = 1200` and
  `DRAWING_SIZE = IMAGE_SIZE * 0.9`; those module-level constants are used
  here directly.
-/

/-! ## Embedding of `utils.py` -/

/-- A Python value that may appear in a list handed to `clean_complex`.
`isinstance(c, complex)` is true exactly for `pycomplex`; floats and ints are
numeric but are *not* instances of `complex`. -/
inductive PyVal where
  | pycomplex (re im : ℚ)
  | pyfloat (x : ℚ)
  | pyint (n : ℤ)
  | pystr (s : String)
deriving DecidableEq

/-- `isinstance(c, complex)` in Python. -/
def PyVal.isComplexInstance : PyVal → Bool
  | .pycomplex _ _ => true
  | _ => false

/-- Numeric Python values (complex, float, int). -/
def PyVal.isNumeric : PyVal → Bool
  | .pycomplex _ _ => true
  | .pyfloat _ => true
  | .pyint _ => true
  | .pystr _ => false

/-- The default tolerance `tol = 1e-10` of `clean_complex`. -/
def TOL : ℚ := 1e-10

/-- One loop iteration of `clean_complex` on the entry `c = re + im*i`
(`utils.py` lines 8-11).  The loop variable `c` is bound once per iteration,
so the second `if` writes `complex(c.real, 0)` with the *original* real part
even when the first `if` already replaced `values[i]`. -/
def clean_entry (tol : ℚ) (re im : ℚ) : ℚ × ℚ :=
  let v1 := if |re| < tol then ((0 : ℚ), im) else (re, im)
  let v2 := if |im| < tol then (re, (0 : ℚ)) else v1
  v2

/-- Embedding of `utils.clean_complex` (lines 4-13): iterate over the list,
raising `ValueError` on any entry that is not a `complex` instance, otherwise
rewriting the entry via the two snapping `if`s. -/
def clean_complex (tol : ℚ) : List PyVal → Except String (List (ℚ × ℚ))
  | [] => Except.ok []
  | v :: rest =>
    match v with
    | .pycomplex re im =>
      Except.map (fun tail => clean_entry tol re im :: tail) (clean_complex tol rest)
    | _ => Except.error ("Input must be a list of complex numbers.")

/-- Embedding of `utils.rotate_points` (lines 16-17):
`points * np.exp(1j * angle)` elementwise. -/
noncomputable def rotate_points (points : List ℂ) (angle : ℝ) : List ℂ :=
  points.map (fun p => p * Complex.exp (Complex.I * (angle : ℂ)))

/-! ## Module-level constants of `modular_multiplication.py` -/

def IMAGE_SIZE : ℕ := 1200

/-- `DRAWING_SIZE = IMAGE_SIZE * 0.9` (exactly `1080`, also in the source's
floating-point arithmetic). -/
noncomputable def DRAWING_SIZE : ℝ := (IMAGE_SIZE : ℝ) * 0.9

def MAX_VERTEX_COUNT : ℕ := 50

def MAX_MODULUS : ℕ := 1000

/-- `self.center = self.img_size // 2` for the GUI's `image_size = 1200`. -/
def display_center : ℕ := IMAGE_SIZE / 2

/-- `complex(self.center, self.center)`. -/
noncomputable def CENTER_C : ℂ := ⟨(display_center : ℝ), (display_center : ℝ)⟩

/-! ## The display state (`ModularMultiplicationDisplay`) -/

/-- The mutable state of a `ModularMultiplicationDisplay`: the four parameters
(`__init__` lines 16-19) plus the three derived caches, which do not exist
until first assigned (hence `Option`). -/
structure Display where
  vertex_count : ℕ
  modulus : ℕ
  multiplier : ℕ
  angle : ℚ
  vertex_points : Option (List ℂ)
  edge_points : Option (List (ℝ × ℝ))
  connections : Option (List (ℕ × ℕ))

/-- The state right after `__init__` (lines 15-23): defaults
`vertex_count=3, modulus=9, multiplier=2, angle=0`, no caches. -/
def init_display : Display :=
  { vertex_count := 3, modulus := 9, multiplier := 2, angle := 0,
    vertex_points := none, edge_points := none, connections := none }

/-- `is_circle` (lines 25-26): `self.vertex_count >= MAX_VERTEX_COUNT`. -/
def Display.is_circle (s : Display) : Prop := MAX_VERTEX_COUNT ≤ s.vertex_count

instance (s : Display) : Decidable s.is_circle := by
  unfold Display.is_circle; infer_instance

/-! ## Geometry kernel -/

/-- The list of vertex positions produced by `compute_vertices` (lines 28-37):
empty in circle mode; otherwise the `vertex_count`-th roots of unity
(`np.exp(2j * np.pi * np.arange(n) / n)`), rotated by `angle`, scaled by
`drawing_width / 2` and translated by `complex(center, center)`. -/
noncomputable def vertex_list (n : ℕ) (angle : ℚ) : List ℂ :=
  if MAX_VERTEX_COUNT ≤ n then []
  else
    let roots := (List.range n).map (fun (j : ℕ) =>
      Complex.exp (2 * Complex.I * (Real.pi : ℂ) * (j : ℂ) / (n : ℂ)))
    let roots := (rotate_points roots ((angle : ℚ) : ℝ)).map (fun z => z * ((DRAWING_SIZE / 2 : ℝ) : ℂ))
    roots.map (fun z => z + CENTER_C)

/-- `compute_vertices` (lines 28-37) as a state transformer: stores
`vertex_list` of the current parameters in `self.vertex_points`. -/
noncomputable def compute_vertices (s : Display) : Display :=
  { s with vertex_points := some (vertex_list s.vertex_count s.angle) }

/-- `polygon_points` (lines 39-46): for each consecutive vertex pair
`(p1, p2)` (with wraparound via `np.roll(vertices, -1)`), the points
`(1-t)*p1 + t*p2` for `t` in `np.linspace(0, 1, points_per_side,
endpoint=False)`, i.e. `t = k / points_per_side` for `k < points_per_side`,
each converted to the tuple `(p.real, p.imag)`. -/
noncomputable def polygon_points (vertices : List ℂ) (points_per_side : ℕ) : List (ℝ × ℝ) :=
  ((vertices.zip (vertices.rotate 1)).map (fun q =>
    (List.range points_per_side).map (fun (k : ℕ) =>
      let t : ℝ := (k : ℝ) / (points_per_side : ℝ)
      let p : ℂ := ((1 - t : ℝ) : ℂ) * q.1 + ((t : ℝ) : ℂ) * q.2
      (p.re, p.im)))).flatten

/-- The edge points of circle mode (`compute_edge_points` lines 49-55):
`modulus` points `np.exp(1j * 2π·k/modulus) * (drawing_width/2)`, rotated by
`angle`, translated by the center, as `(real, imag)` tuples. -/
noncomputable def circle_edge_list (modulus : ℕ) (angle : ℚ) : List (ℝ × ℝ) :=
  let angles := (List.range modulus).map (fun (k : ℕ) => 2 * Real.pi * (k : ℝ) / (modulus : ℝ))
  let points := angles.map (fun (a : ℝ) => Complex.exp (Complex.I * (a : ℂ)) * ((DRAWING_SIZE / 2 : ℝ) : ℂ))
  let points := rotate_points points ((angle : ℚ) : ℝ)
  let points := points.map (fun z => z + CENTER_C)
  points.map (fun z => (z.re, z.im))

/-- `compute_edge_points` (lines 48-58): circle mode stores
`circle_edge_list`; polygon mode computes `points_per_side = modulus //
vertex_count` (a `ZeroDivisionError` if `vertex_count = 0`) and then reads
`self.vertex_points` (an `AttributeError` if that attribute was never set)
and stores `polygon_points` of it. -/
noncomputable def compute_edge_points (s : Display) : Except String Display :=
  if MAX_VERTEX_COUNT ≤ s.vertex_count then
    Except.ok { s with edge_points := some (circle_edge_list s.modulus s.angle) }
  else if s.vertex_count = 0 then
    Except.error ("ZeroDivisionError: integer division or modulo by zero")
  else
    match s.vertex_points with
    | none => Except.error ("AttributeError: vertex_points")
    | some vs =>
      Except.ok { s with edge_points := some (polygon_points vs (s.modulus / s.vertex_count)) }

/-- The loop body of `compute_connections` (lines 60-65): iterate over the
indices of `self.edge_points`, computing `(i * multiplier) % L`; in Python
the modulo raises `ZeroDivisionError` when `L = 0`, but the loop body never
runs on an empty list. -/
def conn_loop (L multiplier : ℕ) : List ℕ → Except String (List (ℕ × ℕ))
  | [] => Except.ok []
  | i :: rest =>
    if L = 0 then Except.error ("ZeroDivisionError: integer division or modulo by zero")
    else Except.map (fun tail => (i, (i * multiplier) % L) :: tail) (conn_loop L multiplier rest)

/-- The connection list as a value: `[(i, (i*K) mod L) for i in range(L)]`. -/
def conn_formula (L multiplier : ℕ) : List (ℕ × ℕ) :=
  (List.range L).map (fun i => (i, (i * multiplier) % L))

/-- `compute_connections` (lines 60-65) as a state transformer: reads
`self.edge_points` and stores the connection pairs. -/
def compute_connections (s : Display) : Except String Display :=
  match s.edge_points with
  | none => Except.error ("AttributeError: edge_points")
  | some eps =>
    Except.map (fun cs => { s with connections := some cs })
      (conn_loop eps.length s.multiplier (List.range eps.length))

/-! ## The update entry point `change_parameters` -/

/-- The four new parameter values passed to `change_parameters`. -/
structure Params where
  vertex_count : ℕ
  modulus : ℕ
  multiplier : ℕ
  angle : ℚ

/-- `len(self.edge_points) if hasattr(self, 'edge_points') else 0`
(line 72). -/
def prevEdgeCount (s : Display) : ℕ :=
  match s.edge_points with
  | some l => l.length
  | none => 0

/-- The state after a `change_parameters` call, instrumented with one flag
per recompute branch (lines 75-77, 79-81, 84-86) recording whether that
branch ran. -/
structure StepResult where
  state : Display
  recomputedVertices : Bool
  recomputedEdgePoints : Bool
  recomputedConnections : Bool

/-- Embedding of `change_parameters` (lines 67-86).  The four deltas are
compared first, `prevEdgeCount` is captured, the angle is always stored, and
the three recompute branches run under exactly the source's conditions; the
stored `vertex_count` / `modulus` / `multiplier` are reassigned only inside
their branches.  Line 83 reads `self.edge_points` unconditionally, which is
an `AttributeError` when no branch ever created it. -/
noncomputable def change_parameters (s : Display) (p : Params) : Except String StepResult :=
  let vertex_count_changed : Bool := decide (s.vertex_count ≠ p.vertex_count)
  let modulus_changed : Bool := decide (s.modulus ≠ p.modulus)
  let multiplier_changed : Bool := decide (s.multiplier ≠ p.multiplier)
  let angle_changed : Bool := decide (s.angle ≠ p.angle)
  let actual_modulus_prev : ℕ := prevEdgeCount s
  let s1 : Display := { s with angle := p.angle }
  let s2 : Display :=
    if angle_changed || vertex_count_changed then
      compute_vertices { s1 with vertex_count := p.vertex_count }
    else s1
  let e3 : Except String Display :=
    if angle_changed || vertex_count_changed || modulus_changed then
      compute_edge_points { s2 with modulus := p.modulus }
    else Except.ok s2
  Except.bind e3 (fun s3 =>
    match s3.edge_points with
    | none => Except.error ("AttributeError: edge_points")
    | some eps =>
      let actual_modulus_changed : Bool := decide (actual_modulus_prev ≠ eps.length)
      if actual_modulus_changed || multiplier_changed then
        Except.map
          (fun s4 => StepResult.mk s4 (angle_changed || vertex_count_changed)
            (angle_changed || vertex_count_changed || modulus_changed) true)
          (compute_connections { s3 with multiplier := p.multiplier })
      else
        Except.ok (StepResult.mk s3 (angle_changed || vertex_count_changed)
          (angle_changed || vertex_count_changed || modulus_changed) false))

/-! ## The rendered scene (`get_image`, lines 103-110) -/

/-- The outline drawn by `draw_vertex_connections` (lines 88-95): the
bounding box of the circle in circle mode, else the polygon vertex loop. -/
inductive Outline where
  | circleBox (corner1 corner2 : ℝ × ℝ)
  | polygonLoop (pts : List (ℝ × ℝ))

/-- The scene rendered by `get_image`: outline, connection segments and
caption (the edge points are read through the connection segments). -/
structure Scene where
  outline : Outline
  segments : List ((ℝ × ℝ) × (ℝ × ℝ))
  caption : String

/-- The caption string of `get_image` (line 109). -/
def caption_string (s : Display) : String :=
  "Modular multiplication " ++
    (if MAX_VERTEX_COUNT ≤ s.vertex_count then "circle" else "polygon") ++
    (if MAX_VERTEX_COUNT ≤ s.vertex_count then "" else ", V=" ++ toString s.vertex_count) ++
    ", M=" ++ toString s.modulus ++ ", K=" ++ toString s.multiplier

/-- The line segments drawn by `draw_multiplication_connections`
(lines 97-101): an `AttributeError` when `connections` or `edge_points` is
missing, an `IndexError` when a connection index is out of range. -/
def connection_segments (s : Display) : Except String (List ((ℝ × ℝ) × (ℝ × ℝ))) :=
  match s.connections, s.edge_points with
  | none, _ => Except.error ("AttributeError: connections")
  | _, none => Except.error ("AttributeError: edge_points")
  | some cs, some eps =>
    cs.mapM (fun c =>
      match eps.get? c.1, eps.get? c.2 with
      | some a, some b => Except.ok (a, b)
      | _, _ => Except.error ("IndexError: list index out of range"))

/-- The scene assembled by `get_image` (lines 103-110), as a pure read of the
cached state. -/
noncomputable def get_scene (s : Display) : Except String Scene :=
  let outlineE : Except String Outline :=
    if MAX_VERTEX_COUNT ≤ s.vertex_count then
      Except.ok (Outline.circleBox
        ((display_center : ℝ) - DRAWING_SIZE / 2, (display_center : ℝ) - DRAWING_SIZE / 2)
        ((display_center : ℝ) + DRAWING_SIZE / 2, (display_center : ℝ) + DRAWING_SIZE / 2))
    else
      match s.vertex_points with
      | none => Except.error ("AttributeError: vertex_points")
      | some vs => Except.ok (Outline.polygonLoop (vs.map (fun z => (z.re, z.im))))
  Except.bind outlineE (fun outline =>
    Except.map (fun segs => Scene.mk outline segs (caption_string s)) (connection_segments s))

/-! ## Basic evaluation lemmas -/

theorem vertex_list_length (n : ℕ) (a : ℚ) :
    (vertex_list n a).length = if MAX_VERTEX_COUNT ≤ n then 0 else n := by
  unfold vertex_list
  split
  · rfl
  · simp only [rotate_points, List.length_map, List.length_range]

theorem length_flatten_const {α β : Type} (f : α → List β) (c : ℕ)
    (h : ∀ a, (f a).length = c) (l : List α) :
    ((l.map f).flatten).length = l.length * c := by
  induction l with
  | nil => simp
  | cons x xs ih =>
    simp only [List.map_cons, List.flatten_cons, List.length_append, ih, h, List.length_cons]
    ring

theorem polygon_points_length (vs : List ℂ) (pps : ℕ) :
    (polygon_points vs pps).length = vs.length * pps := by
  unfold polygon_points
  rw [length_flatten_const _ pps (fun q => by
    simp only [List.length_map, List.length_range])]
  rw [List.length_zip, List.length_rotate, min_self]

theorem circle_edge_list_length (m : ℕ) (a : ℚ) :
    (circle_edge_list m a).length = m := by
  unfold circle_edge_list
  simp only [rotate_points, List.length_map, List.length_range]

theorem conn_loop_eq (L K : ℕ) (l : List ℕ) (hL : l = [] ∨ L ≠ 0) :
    conn_loop L K l = Except.ok (l.map (fun i => (i, (i * K) % L))) := by
  induction l with
  | nil => simp [conn_loop]
  | cons i rest ih =>
    rcases hL with h | h
    · exact absurd h (List.cons_ne_nil i rest)
    · simp only [conn_loop, if_neg h, ih (Or.inr h), Except.map, List.map_cons]

theorem compute_connections_eq (s : Display) (eps : List (ℝ × ℝ))
    (he : s.edge_points = some eps) :
    compute_connections s =
      Except.ok { s with connections := some (conn_formula eps.length s.multiplier) } := by
  have hloop : conn_loop eps.length s.multiplier (List.range eps.length) =
      Except.ok (conn_formula eps.length s.multiplier) := by
    rcases Nat.eq_zero_or_pos eps.length with h0 | hpos
    · rw [h0]
      simp [conn_loop, conn_formula]
    · rw [conn_loop_eq _ _ _ (Or.inr (Nat.pos_iff_ne_zero.mp hpos))]
      rfl
  simp only [compute_connections, he, hloop, Except.map]

theorem compute_edge_points_circle (s : Display) (h : MAX_VERTEX_COUNT ≤ s.vertex_count) :
    compute_edge_points s =
      Except.ok { s with edge_points := some (circle_edge_list s.modulus s.angle) } := by
  unfold compute_edge_points
  rw [if_pos h]

theorem compute_edge_points_polygon (s : Display) (vs : List ℂ)
    (h : ¬ MAX_VERTEX_COUNT ≤ s.vertex_count) (h0 : s.vertex_count ≠ 0)
    (hv : s.vertex_points = some vs) :
    compute_edge_points s =
      Except.ok { s with
        edge_points := some (polygon_points vs (s.modulus / s.vertex_count)) } := by
  unfold compute_edge_points
  rw [if_neg h, if_neg h0, hv]

theorem compute_edge_points_zero_div (s : Display)
    (h : ¬ MAX_VERTEX_COUNT ≤ s.vertex_count) (h0 : s.vertex_count = 0) :
    compute_edge_points s =
      Except.error ("ZeroDivisionError: integer division or modulo by zero") := by
  unfold compute_edge_points
  rw [if_neg h, if_pos h0]

theorem compute_edge_points_no_vertices (s : Display)
    (h : ¬ MAX_VERTEX_COUNT ≤ s.vertex_count) (h0 : s.vertex_count ≠ 0)
    (hv : s.vertex_points = none) :
    compute_edge_points s = Except.error ("AttributeError: vertex_points") := by
  unfold compute_edge_points
  rw [if_neg h, if_neg h0, hv]

/-! ## C5: connections definition and self-loop -/

/-- C5: for every cached edge-point list (of any length `L`) and stored
non-negative multiplier `K`, `compute_connections` succeeds and produces
exactly the ordered pair list `[(i, (i*K) mod L) for i in range(L)]`; when
`L > 0` its first pair is the self-loop `(0, 0)`. -/
theorem c5_connections_definition (s : Display) (eps : List (ℝ × ℝ))
    (he : s.edge_points = some eps) :
    compute_connections s =
      Except.ok { s with connections := some (conn_formula eps.length s.multiplier) } ∧
    conn_formula eps.length s.multiplier =
      (List.range eps.length).map (fun i => (i, (i * s.multiplier) % eps.length)) ∧
    (0 < eps.length → (conn_formula eps.length s.multiplier).head? = some (0, 0)) := by
  refine ⟨compute_connections_eq s eps he, rfl, fun hpos => ?_⟩
  obtain ⟨n, hn⟩ := Nat.exists_eq_succ_of_ne_zero (Nat.pos_iff_ne_zero.mp hpos)
  rw [hn]
  unfold conn_formula
  rw [List.range_succ_eq_map]
  simp

/-- Witness for C5 at the concrete cache `edge_points = [(0, 0)]`,
`multiplier = 2`. -/
theorem c5_connections_definition_witness :
    compute_connections
        (Display.mk 3 9 2 0 none (some [((0 : ℝ), (0 : ℝ))]) none) =
      Except.ok (Display.mk 3 9 2 0 none (some [((0 : ℝ), (0 : ℝ))])
        (some (conn_formula 1 2))) ∧
    (conn_formula 1 2).head? = some (0, 0) := by
  have h := c5_connections_definition
    (Display.mk 3 9 2 0 none (some [((0 : ℝ), (0 : ℝ))]) none) [((0 : ℝ), (0 : ℝ))] rfl
  exact ⟨h.1, h.2.2 (by decide)⟩

/-! ## C3: degenerate geometry is not an error -/

/-- C3: in polygon mode with `modulus < vertexCount`, `samplesPerSide = 0`,
`compute_edge_points` succeeds with an empty edge-point list, and
`compute_connections` on that state succeeds with an empty connection list
(no division or indexing error). -/
theorem c3_degenerate_geometry (v m k : ℕ) (a : ℚ) (vs : List ℂ)
    (h50 : v < MAX_VERTEX_COUNT) (hm : m < v) :
    m / v = 0 ∧
    ∃ s2, compute_edge_points (Display.mk v m k a (some vs) none none) = Except.ok s2 ∧
      s2.edge_points = some ([] : List (ℝ × ℝ)) ∧
      compute_connections s2 = Except.ok { s2 with connections := some ([] : List (ℕ × ℕ)) } := by
  have hv0 : v ≠ 0 := Nat.pos_iff_ne_zero.mp (Nat.lt_of_le_of_lt (Nat.zero_le m) hm)
  have hdiv : m / v = 0 := Nat.div_eq_of_lt hm
  have hpoly : polygon_points vs (m / v) = [] := by
    rw [hdiv]
    have := polygon_points_length vs 0
    rw [Nat.mul_zero] at this
    exact List.length_eq_zero.mp this
  have he := compute_edge_points_polygon (Display.mk v m k a (some vs) none none) vs
    (Nat.not_le.mpr h50) hv0 rfl
  simp only [hpoly] at he
  refine ⟨hdiv, Display.mk v m k a (some vs) (some []) none, he, rfl, ?_⟩
  exact compute_connections_eq _ [] rfl

/-- Witness for C3 at `vertexCount = 4, modulus = 3`. -/
theorem c3_degenerate_geometry_witness :
    (3 : ℕ) / 4 = 0 ∧
    ∃ s2, compute_edge_points (Display.mk 4 3 2 0 (some []) none none) = Except.ok s2 ∧
      s2.edge_points = some ([] : List (ℝ × ℝ)) ∧
      compute_connections s2 = Except.ok { s2 with connections := some ([] : List (ℕ × ℕ)) } :=
  c3_degenerate_geometry 4 3 2 0 [] (by decide) (by decide)

/-! ## C4: edge-point count formula -/

/-- C4: starting from freshly computed vertices, the computed edge-point list
has length `vertexCount * (modulus / vertexCount)` in polygon mode and
exactly `modulus` in circle mode; `samplesPerSide` for `modulus = 100,
vertexCount = 4` is `25`. -/
theorem c4_edge_point_count (v m k : ℕ) (a : ℚ) (hv : 3 ≤ v) :
    (∃ s2, compute_edge_points (compute_vertices (Display.mk v m k a none none none)) =
        Except.ok s2 ∧
      ∃ eps, s2.edge_points = some eps ∧
        eps.length = if MAX_VERTEX_COUNT ≤ v then m else v * (m / v)) ∧
    (100 : ℕ) / 4 = 25 := by
  refine ⟨?_, rfl⟩
  by_cases h50 : MAX_VERTEX_COUNT ≤ v
  · rw [compute_edge_points_circle _ (by simpa [compute_vertices] using h50)]
    refine ⟨_, rfl, circle_edge_list m a, by simp [compute_vertices], ?_⟩
    rw [circle_edge_list_length, if_pos h50]
  · have hv0 : v ≠ 0 := by omega
    rw [compute_edge_points_polygon _ (vertex_list v a) (by simpa [compute_vertices] using h50)
      (by simpa [compute_vertices] using hv0) (by simp [compute_vertices])]
    refine ⟨_, rfl, polygon_points (vertex_list v a) (m / v), by simp [compute_vertices], ?_⟩
    rw [polygon_points_length, vertex_list_length, if_neg h50, if_neg h50]

/-- Witness for C4 at `vertexCount = 4, modulus = 100`: 100 edge points. -/
theorem c4_edge_point_count_witness :
    (∃ s2, compute_edge_points (compute_vertices (Display.mk 4 100 2 0 none none none)) =
        Except.ok s2 ∧
      ∃ eps, s2.edge_points = some eps ∧ eps.length = 100) ∧
    (100 : ℕ) / 4 = 25 := by
  have h := c4_edge_point_count 4 100 2 0 (by norm_num)
  obtain ⟨⟨s2, hs2, eps, heps, hlen⟩, h25⟩ := h
  exact ⟨⟨s2, hs2, eps, heps, by simpa using hlen⟩, h25⟩

/-! ## C6: componentwise snapping in `clean_complex` -/

/-- C6 (bug evidence): on the entry `complex(1e-12, 1e-12)` — both components
below the tolerance — the second `if` of `clean_complex` restores the
original (nonzero) real part, so the result is `(1e-12, 0)` instead of the
componentwise-independent `(0, 0)`; on `complex(1e-12, 3)` the claimed
`(0, 3)` is produced. -/
theorem c6_cleanup_stale_real :
    clean_complex TOL [PyVal.pycomplex (1e-12) (1e-12)] =
      Except.ok [((1e-12 : ℚ), 0)] ∧
    (1e-12 : ℚ) ≠ 0 ∧
    clean_complex TOL [PyVal.pycomplex (1e-12) 3] = Except.ok [((0 : ℚ), 3)] := by
  have h1 : |(1e-12 : ℚ)| < TOL := by
    rw [abs_of_pos (by norm_num)]
    norm_num [TOL]
  have h2 : ¬ |(3 : ℚ)| < TOL := by
    rw [abs_of_pos (by norm_num)]
    norm_num [TOL]
  refine ⟨?_, by norm_num, ?_⟩
  · simp only [clean_complex, clean_entry, Except.map, if_pos h1]
  · simp only [clean_complex, clean_entry, Except.map, if_pos h1, if_neg h2]

/-! ## C9: `clean_complex` input validation -/

/-- C9 counterexample: the input list `[3.0]` contains only numeric entries
(so the claim says `clean_complex` must not raise), yet `clean_complex`
raises `ValueError`, because `isinstance(3.0, complex)` is false in Python. -/
theorem c9_validation_counterexample :
    [PyVal.pyfloat 3].all PyVal.isNumeric = true ∧
    clean_complex TOL [PyVal.pyfloat 3] =
      Except.error ("Input must be a list of complex numbers.") :=
  ⟨rfl, rfl⟩

/-- C9 amended: `clean_complex` raises the descriptive `ValueError` iff the
list contains an entry that is not a `complex` *instance* (plain floats and
ints, though numeric, are also rejected); on a list of complex instances it
returns the cleaned values without error. -/
theorem c9_validation_amended (tol : ℚ) (vs : List PyVal) :
    ((∀ v ∈ vs, v.isComplexInstance = true) →
      clean_complex tol vs = Except.ok (vs.map (fun v =>
        match v with
        | .pycomplex re im => clean_entry tol re im
        | _ => ((0 : ℚ), (0 : ℚ))))) ∧
    ((∃ v ∈ vs, v.isComplexInstance = false) →
      clean_complex tol vs = Except.error ("Input must be a list of complex numbers.")) := by
  induction vs with
  | nil =>
    refine ⟨fun _ => rfl, fun h => ?_⟩
    obtain ⟨v, hv, _⟩ := h
    exact absurd hv (List.not_mem_nil v)
  | cons x rest ih =>
    constructor
    · intro hall
      have hx := hall x (List.mem_cons_self x rest)
      match x, hx with
      | .pycomplex re im, _ =>
        have htail := ih.1 (fun v hv => hall v (List.mem_cons_of_mem _ hv))
        simp only [clean_complex, htail, Except.map, List.map_cons]
    · intro hex
      obtain ⟨v, hv, hvc⟩ := hex
      rcases List.mem_cons.mp hv with rfl | hvrest
      · match v, hvc with
        | .pyfloat x, _ => rfl
        | .pyint n, _ => rfl
        | .pystr s, _ => rfl
      · match x with
        | .pycomplex re im =>
          have htail := ih.2 ⟨v, hvrest, hvc⟩
          simp only [clean_complex, htail, Except.map]
        | .pyfloat y => rfl
        | .pyint n => rfl
        | .pystr t => rfl

/-- Witness for C9 amended, exercising both directions at concrete lists. -/
theorem c9_validation_amended_witness :
    clean_complex TOL [PyVal.pycomplex 1 2] =
      Except.ok [clean_entry TOL 1 2] ∧
    clean_complex TOL [PyVal.pycomplex 0 0, PyVal.pyint 5] =
      Except.error ("Input must be a list of complex numbers.") := by
  constructor
  · exact (c9_validation_amended TOL [PyVal.pycomplex 1 2]).1 (by decide)
  · exact (c9_validation_amended TOL [PyVal.pycomplex 0 0, PyVal.pyint 5]).2
      ⟨PyVal.pyint 5, by decide, by decide⟩

/-! ## C8: permutation criterion for the endpoint map -/

/-- The endpoint map `i ↦ (i * K) % L` on indices, as defined by the pairs
of `conn_formula L K`. -/
def endpoint_map (L K : ℕ) : Fin L → Fin L :=
  fun i => ⟨(i.val * K) % L, Nat.mod_lt _ i.pos⟩

theorem endpoint_map_not_injective (L K : ℕ) (hL : 0 < L)
    (hgcd : Nat.gcd K L ≠ 1) : ¬ Function.Injective (endpoint_map L K) := by
  intro hinj
  have hdpos : 0 < Nat.gcd K L := Nat.gcd_pos_of_pos_right K hL
  have hd2 : 2 ≤ Nat.gcd K L := by omega
  have hdK : Nat.gcd K L ∣ K := Nat.gcd_dvd_left K L
  have hdL : Nat.gcd K L ∣ L := Nat.gcd_dvd_right K L
  have hlt : L / Nat.gcd K L < L := Nat.div_lt_self hL hd2
  have hpos : 0 < L / Nat.gcd K L := Nat.div_pos (Nat.le_of_dvd hL hdL) hdpos
  have h1 : endpoint_map L K ⟨0, hL⟩ = ⟨0, hL⟩ := by
    simp [endpoint_map]
  have h2 : endpoint_map L K ⟨L / Nat.gcd K L, hlt⟩ = ⟨0, hL⟩ := by
    obtain ⟨c, hc⟩ := hdK
    have hmul : L / Nat.gcd K L * K = L * c := by
      calc L / Nat.gcd K L * K
          = L / Nat.gcd K L * (Nat.gcd K L * c) := by rw [← hc]
        _ = L / Nat.gcd K L * Nat.gcd K L * c := by ring
        _ = L * c := by rw [Nat.div_mul_cancel hdL]
    simp [endpoint_map, hmul, Nat.mul_mod_right]
  have := hinj (h2.trans h1.symm)
  have hval : L / Nat.gcd K L = 0 := congrArg Fin.val this
  omega

/-- C8: the endpoint map identified by the computed connection pairs
`(i, (i*K) mod L)` is a permutation of `[0, L)` iff `gcd(K, L) = 1`, and is
not injective whenever `gcd(K, L) ≠ 1`. -/
theorem c8_permutation_criterion (L K : ℕ) (hL : 0 < L) :
    (∀ i : Fin L, (conn_formula L K)[(i.val : ℕ)]? =
      some (i.val, (endpoint_map L K i).val)) ∧
    (Function.Bijective (endpoint_map L K) ↔ Nat.gcd K L = 1) ∧
    (Nat.gcd K L ≠ 1 → ¬ Function.Injective (endpoint_map L K)) := by
  refine ⟨?_, ⟨?_, ?_⟩, endpoint_map_not_injective L K hL⟩
  · intro i
    simp [conn_formula, endpoint_map, i.isLt]
  · intro hbij
    by_contra hgcd
    exact endpoint_map_not_injective L K hL hgcd hbij.injective
  · intro hgcd
    have hinj : Function.Injective (endpoint_map L K) := by
      intro i j hij
      have hv : (i.val * K) % L = (j.val * K) % L := by
        simpa [endpoint_map] using congrArg Fin.val hij
      have hmod : i.val ≡ j.val [MOD L] :=
        Nat.ModEq.cancel_right_of_coprime (by rwa [Nat.gcd_comm]) hv
      have : i.val % L = j.val % L := hmod
      rw [Nat.mod_eq_of_lt i.isLt, Nat.mod_eq_of_lt j.isLt] at this
      exact Fin.ext this
    exact Finite.injective_iff_bijective.mp hinj

/-- Witness for C8: `(i*2) mod 5` is a permutation of `[0,5)`; `(i*2) mod 4`
is not injective. -/
theorem c8_permutation_criterion_witness :
    Function.Bijective (endpoint_map 5 2) ∧
    ¬ Function.Injective (endpoint_map 4 2) := by
  constructor
  · exact ((c8_permutation_criterion 5 2 (by norm_num)).2.1).mpr (by decide)
  · exact (c8_permutation_criterion 4 2 (by norm_num)).2.2 (by decide)

theorem conn_loop_range (L K : ℕ) :
    conn_loop L K (List.range L) = Except.ok (conn_formula L K) := by
  cases L with
  | zero => rfl
  | succ n =>
    rw [conn_loop_eq _ _ _ (Or.inr (Nat.succ_ne_zero n))]
    rfl

/-! ## Evaluation of `change_parameters` on a populated controller -/

/-- The vertex cache after a `change_parameters` call on a populated
controller: recomputed from the new parameters when the vertex branch runs,
untouched otherwise. -/
noncomputable def new_vertices (s : Display) (p : Params) (vs : List ℂ) : List ℂ :=
  if s.angle ≠ p.angle ∨ s.vertex_count ≠ p.vertex_count then
    vertex_list p.vertex_count p.angle
  else vs

/-- The edge-point cache after a `change_parameters` call on a populated
controller. -/
noncomputable def new_edge_points (s : Display) (p : Params) (vs : List ℂ)
    (eps : List (ℝ × ℝ)) : List (ℝ × ℝ) :=
  if s.angle ≠ p.angle ∨ s.vertex_count ≠ p.vertex_count ∨ s.modulus ≠ p.modulus then
    (if MAX_VERTEX_COUNT ≤ p.vertex_count then circle_edge_list p.modulus p.angle
     else polygon_points (new_vertices s p vs) (p.modulus / p.vertex_count))
  else eps

/-- The state after the first two branches of `change_parameters` (before
the connection branch) on a populated controller. -/
noncomputable def mid_state (s : Display) (p : Params) (vs : List ℂ)
    (eps : List (ℝ × ℝ)) : Display :=
  Display.mk
    (if s.angle ≠ p.angle ∨ s.vertex_count ≠ p.vertex_count then p.vertex_count
     else s.vertex_count)
    (if s.angle ≠ p.angle ∨ s.vertex_count ≠ p.vertex_count ∨ s.modulus ≠ p.modulus then
       p.modulus
     else s.modulus)
    s.multiplier p.angle
    (some (new_vertices s p vs))
    (some (new_edge_points s p vs eps))
    s.connections

/-- Full evaluation of `change_parameters` on a controller whose vertex and
edge-point caches are populated (with valid new parameters): the call always
succeeds, the branch flags are exactly the source's conditions, and the
connection branch runs iff the edge-point count changed or the multiplier
changed. -/
theorem change_parameters_populated (s : Display) (p : Params) (vs : List ℂ)
    (eps : List (ℝ × ℝ)) (hv : s.vertex_points = some vs)
    (he : s.edge_points = some eps) (hvc3 : 3 ≤ p.vertex_count) :
    change_parameters s p =
      Except.ok (
        if eps.length ≠ (new_edge_points s p vs eps).length ∨ s.multiplier ≠ p.multiplier then
          StepResult.mk
            { mid_state s p vs eps with
              multiplier := p.multiplier,
              connections := some (conn_formula (new_edge_points s p vs eps).length p.multiplier) }
            (decide (s.angle ≠ p.angle ∨ s.vertex_count ≠ p.vertex_count))
            (decide (s.angle ≠ p.angle ∨ s.vertex_count ≠ p.vertex_count ∨ s.modulus ≠ p.modulus))
            true
        else
          StepResult.mk (mid_state s p vs eps)
            (decide (s.angle ≠ p.angle ∨ s.vertex_count ≠ p.vertex_count))
            (decide (s.angle ≠ p.angle ∨ s.vertex_count ≠ p.vertex_count ∨ s.modulus ≠ p.modulus))
            false) := by
  have hvc0 : p.vertex_count ≠ 0 := by omega
  have hprev : prevEdgeCount s = eps.length := by simp [prevEdgeCount, he]
  by_cases hA : s.angle = p.angle <;> by_cases hV : s.vertex_count = p.vertex_count <;>
    by_cases hM : s.modulus = p.modulus <;>
    by_cases h50 : MAX_VERTEX_COUNT ≤ p.vertex_count <;>
    by_cases hK : s.multiplier = p.multiplier <;>
    simp [change_parameters, hprev, hv, he, new_edge_points, new_vertices, mid_state,
      compute_vertices, compute_edge_points, compute_connections, conn_loop_range,
      hA, hV, hM, hvc0, h50, hK, Except.bind, Except.map, apply_ite]

/-! ## C1: connection staleness invariant -/

/-- C1: on a populated controller whose connection cache satisfies the
invariant, every (valid) `change_parameters` call succeeds, recomputes the
connection cache iff the edge-point count changed or the multiplier changed,
and re-establishes the invariant `connections = [(i, (i*K) mod L)]` for the
current edge-point count `L` and stored multiplier `K`; in particular
`(V=4, M=8) → (V=4, M=12)` with unchanged multiplier triggers a connection
recompute, while `(V=4, M=9) → (V=4, M=10)` (same `floor(M/V)`) with
unchanged multiplier skips it. -/
theorem c1_connection_staleness :
    (∀ (s : Display) (p : Params) (vs : List ℂ) (eps : List (ℝ × ℝ)) (cs : List (ℕ × ℕ)),
      s.vertex_points = some vs → s.edge_points = some eps → s.connections = some cs →
      cs = conn_formula eps.length s.multiplier → 3 ≤ p.vertex_count →
      ∃ (r : StepResult) (eps2 : List (ℝ × ℝ)),
        change_parameters s p = Except.ok r ∧
        r.state.edge_points = some eps2 ∧
        (r.recomputedConnections = true ↔
          (eps2.length ≠ eps.length ∨ p.multiplier ≠ s.multiplier)) ∧
        r.state.connections = some (conn_formula eps2.length r.state.multiplier)) ∧
    (∀ (s : Display) (vs : List ℂ) (eps : List (ℝ × ℝ)) (k : ℕ) (a : ℚ),
      s = Display.mk 4 8 k a (some vs) (some eps) (some (conn_formula eps.length k)) →
      vs.length = 4 → eps.length = 8 →
      ∃ r, change_parameters s (Params.mk 4 12 k a) = Except.ok r ∧
        r.recomputedConnections = true) ∧
    (∀ (s : Display) (vs : List ℂ) (eps : List (ℝ × ℝ)) (k : ℕ) (a : ℚ),
      s = Display.mk 4 9 k a (some vs) (some eps) (some (conn_formula eps.length k)) →
      vs.length = 4 → eps.length = 8 →
      ∃ r, change_parameters s (Params.mk 4 10 k a) = Except.ok r ∧
        r.recomputedConnections = false) := by
  refine ⟨?_, ?_, ?_⟩
  · intro s p vs eps cs hv he hc hinv hvc3
    have h := change_parameters_populated s p vs eps hv he hvc3
    by_cases hC : eps.length ≠ (new_edge_points s p vs eps).length ∨ s.multiplier ≠ p.multiplier
    · rw [if_pos hC] at h
      refine ⟨_, new_edge_points s p vs eps, h, rfl, ?_, rfl⟩
      constructor
      · intro _
        rcases hC with h1 | h2
        · exact Or.inl (Ne.symm h1)
        · exact Or.inr (Ne.symm h2)
      · intro _
        rfl
    · rw [if_neg hC] at h
      push_neg at hC
      obtain ⟨hlen, hmult⟩ := hC
      refine ⟨_, new_edge_points s p vs eps, h, rfl, ?_, ?_⟩
      · constructor
        · intro hfalse
          exact absurd hfalse (by simp)
        · intro habs
          rcases habs with h1 | h2
          · exact absurd hlen (Ne.symm h1)
          · exact absurd hmult (Ne.symm h2)
      · show s.connections = _
        rw [hc, hinv, hlen]
        rfl
  · intro s vs eps k a hs hvs heps
    subst hs
    have h := change_parameters_populated
      (Display.mk 4 8 k a (some vs) (some eps) (some (conn_formula eps.length k)))
      (Params.mk 4 12 k a) vs eps rfl rfl (by norm_num)
    have hnew : new_edge_points
        (Display.mk 4 8 k a (some vs) (some eps) (some (conn_formula eps.length k)))
        (Params.mk 4 12 k a) vs eps = polygon_points vs 3 := by
      simp [new_edge_points, new_vertices, MAX_VERTEX_COUNT]
    have hlen : (new_edge_points
        (Display.mk 4 8 k a (some vs) (some eps) (some (conn_formula eps.length k)))
        (Params.mk 4 12 k a) vs eps).length = 12 := by
      rw [hnew, polygon_points_length, hvs]
    rw [if_pos (Or.inl (by rw [hlen, heps]; norm_num))] at h
    exact ⟨_, h, rfl⟩
  · intro s vs eps k a hs hvs heps
    subst hs
    have h := change_parameters_populated
      (Display.mk 4 9 k a (some vs) (some eps) (some (conn_formula eps.length k)))
      (Params.mk 4 10 k a) vs eps rfl rfl (by norm_num)
    have hnew : new_edge_points
        (Display.mk 4 9 k a (some vs) (some eps) (some (conn_formula eps.length k)))
        (Params.mk 4 10 k a) vs eps = polygon_points vs 2 := by
      simp [new_edge_points, new_vertices, MAX_VERTEX_COUNT]
    have hlen : (new_edge_points
        (Display.mk 4 9 k a (some vs) (some eps) (some (conn_formula eps.length k)))
        (Params.mk 4 10 k a) vs eps).length = 8 := by
      rw [hnew, polygon_points_length, hvs]
    rw [if_neg (by rw [hlen]; simp [heps])] at h
    exact ⟨_, h, rfl⟩

/-- Witness for C1: both staleness scenarios at concrete populated caches. -/
theorem c1_connection_staleness_witness :
    (∃ r, change_parameters
        (Display.mk 4 8 2 0 (some (List.replicate 4 (0 : ℂ)))
          (some (List.replicate 8 ((0 : ℝ), (0 : ℝ)))) (some (conn_formula 8 2)))
        (Params.mk 4 12 2 0) = Except.ok r ∧
      r.recomputedConnections = true) ∧
    (∃ r, change_parameters
        (Display.mk 4 9 2 0 (some (List.replicate 4 (0 : ℂ)))
          (some (List.replicate 8 ((0 : ℝ), (0 : ℝ)))) (some (conn_formula 8 2)))
        (Params.mk 4 10 2 0) = Except.ok r ∧
      r.recomputedConnections = false) := by
  constructor
  · exact c1_connection_staleness.2.1 _ (List.replicate 4 (0 : ℂ))
      (List.replicate 8 ((0 : ℝ), (0 : ℝ))) 2 0 rfl (by simp) (by simp)
  · exact c1_connection_staleness.2.2 _ (List.replicate 4 (0 : ℂ))
      (List.replicate 8 ((0 : ℝ), (0 : ℝ))) 2 0 rfl (by simp) (by simp)

/-! ## C7: idempotence of `change_parameters` -/

set_option maxHeartbeats 1600000 in
theorem change_parameters_stores (s : Display) (p : Params) (r : StepResult)
    (h : change_parameters s p = Except.ok r) :
    r.state.angle = p.angle ∧ r.state.vertex_count = p.vertex_count ∧
    r.state.modulus = p.modulus ∧ r.state.multiplier = p.multiplier ∧
    ∃ eps, r.state.edge_points = some eps := by
  have hMAX0 : ¬ MAX_VERTEX_COUNT ≤ 0 := by norm_num [MAX_VERTEX_COUNT]
  obtain ⟨sv, sm, sk, sa, svp, sep, scn⟩ := s
  obtain ⟨pv, pm, pk, pa⟩ := p
  by_cases hA : pa = sa <;> (try subst hA) <;>
    by_cases hV : pv = sv <;> (try subst hV) <;>
    by_cases hM : pm = sm <;> (try subst hM) <;>
    by_cases hK : pk = sk <;> (try subst hK) <;>
    by_cases h50 : MAX_VERTEX_COUNT ≤ pv <;>
    by_cases h0 : pv = 0 <;> (try subst h0) <;>
    (try (exact absurd h50 hMAX0)) <;>
    (try (have hA2 : sa ≠ pa := Ne.symm hA)) <;>
    (try (have hV2 : sv ≠ pv := Ne.symm hV)) <;>
    (try (have hM2 : sm ≠ pm := Ne.symm hM)) <;>
    (try (have hK2 : sk ≠ pk := Ne.symm hK)) <;>
    (try (have hV0 : ¬ sv = 0 := fun hh => hV hh.symm)) <;>
    cases svp <;> cases sep <;>
    simp [change_parameters, compute_vertices, compute_edge_points_circle,
      compute_edge_points_polygon, compute_edge_points_zero_div,
      compute_edge_points_no_vertices, compute_connections, conn_loop_range,
      prevEdgeCount, Except.bind, Except.map, *] at h <;>
    (repeat' split at h) <;>
    first
      | exact Except.noConfusion h
      | ((first
            | (injection h with h2
               subst h2)
            | subst h)
         exact ⟨rfl, rfl, rfl, rfl, _, rfl⟩)

theorem change_parameters_second_call (t : Display) (p : Params) (eps : List (ℝ × ℝ))
    (ha : t.angle = p.angle) (hv : t.vertex_count = p.vertex_count)
    (hm : t.modulus = p.modulus) (hk : t.multiplier = p.multiplier)
    (he : t.edge_points = some eps) :
    change_parameters t p = Except.ok (StepResult.mk t false false false) := by
  obtain ⟨tv, tm, tk, ta, tvp, tep, tcn⟩ := t
  obtain ⟨pv, pm, pk, pa⟩ := p
  simp only at ha hv hm hk he
  subst ha
  subst hv
  subst hm
  subst hk
  subst he
  simp [change_parameters, prevEdgeCount, Except.bind]

/-- C7: a second `change_parameters` call with arguments identical to an
immediately preceding successful call performs no recomputation (all three
branch flags are false, the state is untouched) and yields an identical
scene. -/
theorem c7_idempotence (s : Display) (p : Params) (r : StepResult)
    (h : change_parameters s p = Except.ok r) :
    ∃ r2, change_parameters r.state p = Except.ok r2 ∧
      r2.state = r.state ∧
      r2.recomputedVertices = false ∧ r2.recomputedEdgePoints = false ∧
      r2.recomputedConnections = false ∧
      get_scene r2.state = get_scene r.state := by
  obtain ⟨ha, hv, hm, hk, eps, he⟩ := change_parameters_stores s p r h
  exact ⟨StepResult.mk r.state false false false,
    change_parameters_second_call r.state p eps ha hv hm hk he,
    rfl, rfl, rfl, rfl, rfl⟩

/-- Witness for C7: a concrete first call (angle changes on a populated
fresh-like controller), then the identical second call. -/
theorem c7_idempotence_witness :
    ∃ r r2, change_parameters
        (Display.mk 3 9 2 0 (some []) (some []) (some []))
        (Params.mk 3 9 2 1) = Except.ok r ∧
      change_parameters r.state (Params.mk 3 9 2 1) = Except.ok r2 ∧
      r2.state = r.state ∧ r2.recomputedConnections = false := by
  have h := change_parameters_populated
    (Display.mk 3 9 2 0 (some []) (some []) (some []))
    (Params.mk 3 9 2 1) [] [] rfl rfl (by norm_num)
  obtain ⟨r2, h2, hstate, _, _, hconn, _⟩ := c7_idempotence _ _ _ h
  exact ⟨_, r2, h, h2, hstate, hconn⟩

theorem conn_loop_nil (L K : ℕ) : conn_loop L K [] = Except.ok [] := rfl

theorem polygon_points_eq_nil (vs : List ℂ) (pps : ℕ) (h : vs.length * pps = 0) :
    polygon_points vs pps = [] := by
  rw [← List.length_eq_zero, polygon_points_length]
  exact h

theorem polygon_points_ne_nil (vs : List ℂ) (pps : ℕ) (h : ¬ vs.length * pps = 0) :
    ¬ polygon_points vs pps = [] := by
  intro hnil
  exact h (by rw [← polygon_points_length vs pps, hnil]; rfl)

/-! ## C10: first call on a freshly constructed display -/

/-- C10 counterexample: on a fresh display, a first call that differs only in
`modulus` (claimed by C10 to complete, since modulus is among the fixing
parameters) instead raises an `AttributeError`: the vertex branch is skipped,
so `compute_edge_points` reads the never-created `vertex_points`. -/
theorem c10_fresh_modulus_only_counterexample :
    change_parameters init_display (Params.mk 3 12 2 0) =
      Except.error ("AttributeError: vertex_points") := by
  have h : ¬ MAX_VERTEX_COUNT ≤ (3 : ℕ) := by norm_num [MAX_VERTEX_COUNT]
  simp [change_parameters, init_display, prevEdgeCount, Except.bind,
    compute_edge_points_no_vertices, h]

/-- C10 amended: on a fresh display, the all-defaults first call raises an
`AttributeError` reading `edge_points` in the edge-count comparison; a first
(valid) call that differs in `angle` or `vertexCount` completes and
initializes the vertex and edge-point caches, and initializes the
connections cache iff the new edge-point count is nonzero or the multiplier
differs from its default; a first call differing only in `modulus` raises
(see the counterexample). -/
theorem c10_fresh_display_first_call :
    change_parameters init_display (Params.mk 3 9 2 0) =
      Except.error ("AttributeError: edge_points") ∧
    (∀ p : Params, 3 ≤ p.vertex_count → 1 ≤ p.modulus →
      (p.angle ≠ 0 ∨ p.vertex_count ≠ 3) →
      ∃ r vs eps, change_parameters init_display p = Except.ok r ∧
        r.state.vertex_points = some vs ∧ r.state.edge_points = some eps ∧
        (r.state.connections.isSome ↔ (eps.length ≠ 0 ∨ p.multiplier ≠ 2))) := by
  have hMAX0 : ¬ MAX_VERTEX_COUNT ≤ 0 := by norm_num [MAX_VERTEX_COUNT]
  constructor
  · simp [change_parameters, init_display, prevEdgeCount, Except.bind]
  · rintro ⟨pv, pm, pk, pa⟩ h3 h1m hdelta
    simp only at h3 h1m hdelta
    have h0 : pv ≠ 0 := by omega
    have hm0 : (0 : ℕ) ≠ pm := by omega
    have hcne : ∀ a : ℚ, ¬ circle_edge_list pm a = [] := by
      intro a hnil
      have hl := circle_edge_list_length pm a
      rw [hnil] at hl
      simp at hl
      omega
    by_cases h50 : MAX_VERTEX_COUNT ≤ pv <;>
      by_cases hA : pa = 0 <;> (try subst hA) <;>
      by_cases hV : pv = 3 <;> (try (rw [hV] at h50)) <;>
      (try (norm_num [MAX_VERTEX_COUNT] at h50
            done)) <;>
      (try (rcases hdelta with hh | hh <;> simp [hV] at hh)) <;>
      by_cases hK : pk = 2 <;> (try subst hK) <;>
      by_cases hL : pv * (pm / pv) = 0 <;>
      (try (rw [hV] at hL)) <;>
      (try (have hL3 : pm / pv = 0 := (Nat.mul_eq_zero.mp hL).resolve_left h0)) <;>
      (try (have hL3 : pm / 3 = 0 := (Nat.mul_eq_zero.mp hL).resolve_left three_ne_zero)) <;>
      (try (have hL4 : ¬ pm / pv = 0 := fun hh => hL (mul_eq_zero_of_right pv hh))) <;>
      (try (have hL4 : ¬ pm / 3 = 0 := fun hh => hL (mul_eq_zero_of_right 3 hh))) <;>
      (try (have hA2 : ¬ (0 : ℚ) = pa := fun hh => hA hh.symm)) <;>
      (try (have hV2 : ¬ (3 : ℕ) = pv := fun hh => hV hh.symm)) <;>
      (try (have hK2 : ¬ (2 : ℕ) = pk := fun hh => hK hh.symm)) <;>
      (try (have hL2 : ¬ (0 : ℕ) = pv * (pm / pv) := fun hh => hL hh.symm)) <;>
      simp [change_parameters, init_display, prevEdgeCount, compute_vertices,
        compute_edge_points_circle, compute_edge_points_polygon, conn_loop_range,
        conn_loop_nil, polygon_points_eq_nil, polygon_points_ne_nil,
        compute_connections, circle_edge_list_length, polygon_points_length,
        vertex_list_length, Except.bind, Except.map, *]

/-- Witness for C10 amended: a first call differing only in angle. -/
theorem c10_fresh_display_first_call_witness :
    ∃ r vs eps, change_parameters init_display (Params.mk 3 9 2 1) = Except.ok r ∧
      r.state.vertex_points = some vs ∧ r.state.edge_points = some eps ∧
      (r.state.connections.isSome ↔ (eps.length ≠ 0 ∨ (2 : ℕ) ≠ 2)) := by
  exact c10_fresh_display_first_call.2 (Params.mk 3 9 2 1) (by norm_num) (by norm_num)
    (Or.inl (by norm_num))

/-! ## C2: coordinate bounds of the cached geometry -/

theorem canonical_point_bounds (s : ℝ) :
    60 ≤ (Complex.exp ((s : ℂ) * Complex.I) * ((DRAWING_SIZE / 2 : ℝ) : ℂ) + CENTER_C).re ∧
    (Complex.exp ((s : ℂ) * Complex.I) * ((DRAWING_SIZE / 2 : ℝ) : ℂ) + CENTER_C).re ≤ 1140 ∧
    60 ≤ (Complex.exp ((s : ℂ) * Complex.I) * ((DRAWING_SIZE / 2 : ℝ) : ℂ) + CENTER_C).im ∧
    (Complex.exp ((s : ℂ) * Complex.I) * ((DRAWING_SIZE / 2 : ℝ) : ℂ) + CENTER_C).im ≤ 1140 := by
  have hD : (DRAWING_SIZE / 2 : ℝ) = 540 := by
    norm_num [DRAWING_SIZE, IMAGE_SIZE]
  have hC : CENTER_C = ⟨(600 : ℝ), (600 : ℝ)⟩ := by
    norm_num [CENTER_C, display_center, IMAGE_SIZE]
  rw [hD, hC, Complex.exp_mul_I, ← Complex.ofReal_cos, ← Complex.ofReal_sin]
  have hre : ((↑(Real.cos s) + ↑(Real.sin s) * Complex.I) * ((540 : ℝ) : ℂ) +
      (⟨(600 : ℝ), (600 : ℝ)⟩ : ℂ)).re = Real.cos s * 540 + 600 := by
    simp [Complex.add_re, Complex.mul_re, Complex.cos_ofReal_re, Complex.sin_ofReal_re]
  have him : ((↑(Real.cos s) + ↑(Real.sin s) * Complex.I) * ((540 : ℝ) : ℂ) +
      (⟨(600 : ℝ), (600 : ℝ)⟩ : ℂ)).im = Real.sin s * 540 + 600 := by
    simp [Complex.add_im, Complex.mul_im, Complex.cos_ofReal_re, Complex.sin_ofReal_re]
  rw [hre, him]
  have hc1 := Real.neg_one_le_cos s
  have hc2 := Real.cos_le_one s
  have hs1 := Real.neg_one_le_sin s
  have hs2 := Real.sin_le_one s
  refine ⟨by nlinarith, by nlinarith, by nlinarith, by nlinarith⟩

theorem vertex_list_coord_bounds (n : ℕ) (a : ℚ) :
    ∀ z ∈ vertex_list n a,
      60 ≤ z.re ∧ z.re ≤ 1140 ∧ 60 ≤ z.im ∧ z.im ≤ 1140 := by
  intro z hz
  unfold vertex_list at hz
  split at hz
  · exact absurd hz (List.not_mem_nil z)
  · simp only [rotate_points, List.map_map, List.mem_map, List.mem_range,
      Function.comp] at hz
    obtain ⟨j, hj, rfl⟩ := hz
    have hcanon :
        Complex.exp (2 * Complex.I * (Real.pi : ℂ) * (j : ℂ) / (n : ℂ)) *
            Complex.exp (Complex.I * (((a : ℚ) : ℝ) : ℂ)) =
          Complex.exp (((2 * Real.pi * (j : ℝ) / (n : ℝ) + ((a : ℚ) : ℝ) : ℝ) : ℂ) *
            Complex.I) := by
      rw [← Complex.exp_add]
      congr 1
      push_cast
      ring
    rw [hcanon]
    exact canonical_point_bounds _

theorem circle_edge_list_coord_bounds (m : ℕ) (a : ℚ) :
    ∀ q ∈ circle_edge_list m a,
      60 ≤ q.1 ∧ q.1 ≤ 1140 ∧ 60 ≤ q.2 ∧ q.2 ≤ 1140 := by
  intro q hq
  unfold circle_edge_list at hq
  simp only [rotate_points, List.map_map, List.mem_map, List.mem_range,
    Function.comp] at hq
  obtain ⟨k, hk, rfl⟩ := hq
  have hcanon :
      Complex.exp (Complex.I * ((2 * Real.pi * (k : ℝ) / (m : ℝ) : ℝ) : ℂ)) *
          ((DRAWING_SIZE / 2 : ℝ) : ℂ) *
          Complex.exp (Complex.I * (((a : ℚ) : ℝ) : ℂ)) =
        Complex.exp (((2 * Real.pi * (k : ℝ) / (m : ℝ) + ((a : ℚ) : ℝ) : ℝ) : ℂ) *
          Complex.I) * ((DRAWING_SIZE / 2 : ℝ) : ℂ) := by
    rw [mul_right_comm, ← Complex.exp_add]
    congr 2
    push_cast
    ring
  rw [hcanon]
  exact canonical_point_bounds _

theorem polygon_points_coord_bounds (vs : List ℂ) (pps : ℕ)
    (hb : ∀ z ∈ vs, 60 ≤ z.re ∧ z.re ≤ 1140 ∧ 60 ≤ z.im ∧ z.im ≤ 1140) :
    ∀ q ∈ polygon_points vs pps,
      60 ≤ q.1 ∧ q.1 ≤ 1140 ∧ 60 ≤ q.2 ∧ q.2 ≤ 1140 := by
  intro q hq
  unfold polygon_points at hq
  simp only [List.mem_flatten, List.mem_map, List.mem_range] at hq
  obtain ⟨inner, ⟨pq, hpq, rfl⟩, hqin⟩ := hq
  simp only [List.mem_map, List.mem_range] at hqin
  obtain ⟨k, hk, rfl⟩ := hqin
  obtain ⟨h1, h2⟩ := List.of_mem_zip hpq
  rw [List.mem_rotate] at h2
  obtain ⟨hb1a, hb1b, hb1c, hb1d⟩ := hb pq.1 h1
  obtain ⟨hb2a, hb2b, hb2c, hb2d⟩ := hb pq.2 h2
  have hppos : 0 < (pps : ℝ) := by
    exact_mod_cast Nat.pos_of_ne_zero (fun hh => by omega)
  have ht0 : 0 ≤ (k : ℝ) / (pps : ℝ) := by positivity
  have ht1 : (k : ℝ) / (pps : ℝ) ≤ 1 := by
    rw [div_le_one hppos]
    exact_mod_cast Nat.le_of_lt hk
  constructor
  · simp only [Complex.add_re, Complex.mul_re, Complex.ofReal_re, Complex.ofReal_im]
    nlinarith
  constructor
  · simp only [Complex.add_re, Complex.mul_re, Complex.ofReal_re, Complex.ofReal_im]
    nlinarith
  constructor
  · simp only [Complex.add_im, Complex.mul_im, Complex.ofReal_re, Complex.ofReal_im]
    nlinarith
  · simp only [Complex.add_im, Complex.mul_im, Complex.ofReal_re, Complex.ofReal_im]
    nlinarith

/-- C2 (bug evidence): with the program's canvas constants
(`IMAGE_SIZE = 1200`, `DRAWING_SIZE = 1080`), every coordinate of the
computed vertex and edge-point caches lies in `[60, 1140]`, so no cached
component ever has magnitude below the `1e-10` tolerance: the claimed
snapping step (which the source never invokes — `clean_complex` is dead
code) could never fire on the data it is claimed to clean. -/
theorem c2_no_subtolerance_coordinates (v m k : ℕ) (a : ℚ) (hv : 3 ≤ v) :
    (∀ z ∈ vertex_list v a, (1e-10 : ℝ) ≤ |z.re| ∧ (1e-10 : ℝ) ≤ |z.im|) ∧
    (∃ s2, compute_edge_points (compute_vertices (Display.mk v m k a none none none)) =
        Except.ok s2 ∧
      ∀ eps, s2.edge_points = some eps →
        ∀ q ∈ eps, (1e-10 : ℝ) ≤ |q.1| ∧ (1e-10 : ℝ) ≤ |q.2|) := by
  have habs : ∀ x : ℝ, 60 ≤ x → x ≤ 1140 → (1e-10 : ℝ) ≤ |x| := by
    intro x h1 _
    rw [abs_of_nonneg (by linarith)]
    norm_num
    linarith
  constructor
  · intro z hz
    obtain ⟨b1, b2, b3, b4⟩ := vertex_list_coord_bounds v a z hz
    exact ⟨habs _ b1 b2, habs _ b3 b4⟩
  · by_cases h50 : MAX_VERTEX_COUNT ≤ v
    · rw [compute_edge_points_circle _ (by simpa [compute_vertices] using h50)]
      refine ⟨_, rfl, ?_⟩
      rintro eps heps q hq
      obtain rfl : circle_edge_list m a = eps := Option.some_injective _ heps
      obtain ⟨b1, b2, b3, b4⟩ := circle_edge_list_coord_bounds m a q hq
      exact ⟨habs _ b1 b2, habs _ b3 b4⟩
    · have hv0 : v ≠ 0 := by omega
      rw [compute_edge_points_polygon _ (vertex_list v a)
        (by simpa [compute_vertices] using h50)
        (by simpa [compute_vertices] using hv0) (by simp [compute_vertices])]
      refine ⟨_, rfl, ?_⟩
      rintro eps heps q hq
      obtain rfl : polygon_points (vertex_list v a) (m / v) = eps :=
        Option.some_injective _ heps
      obtain ⟨b1, b2, b3, b4⟩ :=
        polygon_points_coord_bounds (vertex_list v a) (m / v)
          (vertex_list_coord_bounds v a) q hq
      exact ⟨habs _ b1 b2, habs _ b3 b4⟩

/-- Witness for C2's bound theorem at `v = 3, m = 9, k = 2, angle = 0`. -/
theorem c2_no_subtolerance_coordinates_witness :
    (∀ z ∈ vertex_list 3 0, (1e-10 : ℝ) ≤ |z.re| ∧ (1e-10 : ℝ) ≤ |z.im|) ∧
    (∃ s2, compute_edge_points (compute_vertices (Display.mk 3 9 2 0 none none none)) =
        Except.ok s2 ∧
      ∀ eps, s2.edge_points = some eps →
        ∀ q ∈ eps, (1e-10 : ℝ) ≤ |q.1| ∧ (1e-10 : ℝ) ≤ |q.2|) :=
  c2_no_subtolerance_coordinates 3 9 2 0 (by norm_num)
